import Mathlib

/-!
Shallow embedding of the selective-disclosure JWT core
(`src/sd_jwt/operations.py`) and the claims stated about it.

Modelling conventions, fixed once for the whole development:

* JSON leaf values are modelled by `JVal` (null, bool, integer, string,
  array).  A JSON *object* value is never a leaf in the source: the
  structural walk treats every mapping as a branch, so claim trees are
  modelled by `Tree JVal` / `Entries JVal` (association lists of keyed
  subtrees, mirroring Python dicts; key lists of real dicts are
  duplicate-free, which theorems assume via `nodupKeys` where needed).
* Serialized JSON text is produced by the executable printer `dumps`
  (mirroring `json.dumps` on this fragment).  Raw disclosure entries,
  which the source passes around as serialized text produced by
  `json.dumps([salt, value])` and re-parses with `json.loads`, are
  modelled by their parsed JSON values (`JVal`): canonical serialization
  is injective, so the two views are in bijection; `loads` of a text the
  model produced is the identity at this level.
* The SHA-256 digest (`hashlib.sha256`, base64url, padding stripped) is
  modelled by the executable injective tagging `hash_raw`; no claim in
  scope depends on concrete digest values or on hash collisions, only on
  the digest being a deterministic function of the hashed text.
* The external signer/verifier (`jwcrypto.jws.JWS`) is modelled
  Dolev-Yao style: a compact signed token serializes to three segments
  (header, payload, signature) and the signature segment records which
  key produced it; signature verification succeeds exactly for the
  matching key.  Keys (`jwcrypto.jwk.JWK`) are opaque handles `JWK`;
  `export_public` yields the canonical public representation `PubKey`,
  and `JWK.from_json` of such a representation is the identity on it.
* Base64url transport encodings of whole JSON documents (the SVC
  container, token payload segments) are bijections and are modelled at
  the payload level.
* Python `ValueError`s raised by the source are mapped to the error
  taxonomy of the specification (`Err`).
-/

namespace SDJWT

/-- Error taxonomy of the specification (section 7); each constructor
stands for one of the `ValueError`s (or jwcrypto failures) the source
raises. `deserializeError` stands for failures of `JWS.deserialize` /
payload parsing on structurally alien tokens. -/
inductive Err where
  | structureMismatch
  | malformedPresentation
  | malformedDisclosure
  | commitmentMismatch
  | invalidIssuer
  | invalidAudience
  | invalidNonce
  | holderKeyMismatch
  | missingCommitments
  | signatureInvalid
  | invalidArguments
  | deserializeError
deriving DecidableEq, Repr

/-- JSON values that can appear as claim leaves or disclosure entries.
A JSON object is deliberately absent: the source's structural walk
(`isinstance(value, dict)`) treats every object as a branch, never as a
leaf value. -/
inductive JVal where
  | null
  | bool (b : Bool)
  | num (n : Int)
  | str (s : String)
  | arr (elems : List JVal)
deriving Repr

/-- Escape a character for a JSON string literal, as `json.dumps` does
for the quote and backslash characters (other escapes do not occur in
the inputs this model ranges over). -/
def escChar (c : Char) : List Char :=
  if c = '"' ∨ c = '\\' then ['\\', c] else [c]

/-- Escape a whole string for inclusion in a JSON string literal. -/
def escString (s : String) : String :=
  String.mk (s.data.foldr (fun c acc => escChar c ++ acc) [])

mutual

/-- Serialize a JSON value to text, mirroring `json.dumps` with its
default separators (`", "` between array items). -/
def dumps : JVal → String
  | .null => "null"
  | .bool true => "true"
  | .bool false => "false"
  | .num n => toString n
  | .str s => "\"" ++ escString s ++ "\""
  | .arr xs => "[" ++ dumpsList xs ++ "]"

/-- Serialize the comma-separated items of a JSON array. -/
def dumpsList : List JVal → String
  | [] => ""
  | [x] => dumps x
  | x :: y :: rest => dumps x ++ ", " ++ dumpsList (y :: rest)

end

/-- Source `hash_raw`: SHA-256 of the raw text, base64url encoded with
padding stripped.  The digest is modelled as an uninterpreted injective
tagging of the hashed text: every claim in scope depends only on the
digest being a deterministic function of its input. -/
def hash_raw (raw : String) : String :=
  "sha256:" ++ raw

/-- Source `hash_claim(salt, value)` (the `return_raw=False` branch):
the digest of `json.dumps([salt, value])`.  The salt slot is a `JVal`
because the source would serialize whatever object it is handed there
(`None` becomes JSON `null`). -/
def hash_claim (salt : JVal) (value : JVal) : String :=
  hash_raw (dumps (.arr [salt, value]))

/-- Source `hash_claim(salt, value, return_raw=True)` (also reachable as
`_create_svc_entry`): the serialized two-element array
`json.dumps([salt, value])`, modelled by its parsed JSON value. -/
def hash_claim_raw (salt : JVal) (value : JVal) : JVal :=
  .arr [salt, value]

/-- Source `secrets.compare_digest`: constant-time string comparison.
Functionally it is equality of the two strings; the timing behaviour is
outside this functional model. -/
def compare_digest (a b : String) : Bool :=
  a == b

/-- Nested claim trees: either a leaf value or a keyed mapping of
subtrees (a Python dict, in insertion order). -/
inductive Tree (α : Type) where
  | leaf (v : α)
  | node (kvs : List (String × Tree α))
deriving Repr

/-- Entry list of one mapping level of a `Tree` (a Python dict body). -/
abbrev Entries (α : Type) := List (String × Tree α)

/-- Modelled from the spec: `walk.by_structure` (`sd_jwt/walk.py`, not
under `src/`), the structural transform of spec section 4.1, in its pure
instances (commitments, disclosure entries, release construction,
verification).  For each key of `data` in order: a nested subtree
recurses into the structure's subtree at that key (an absent structure
key recurses into the empty mapping); a leaf applies `fn` to the key,
the leaf value, and the structure's leaf at that key when present.  A
leaf of `data` against a nested structure tree, or vice versa, fails
with `StructureMismatch`. -/
def walk_by_structure (st : Entries β) (data : Entries α)
    (fn : String → α → Option β → Except Err γ) : Except Err (Entries γ) :=
  match data with
  | [] => .ok []
  | (k, Tree.leaf v) :: rest =>
    match List.lookup k st with
    | some (Tree.node _) => .error .structureMismatch
    | some (Tree.leaf b) =>
      match fn k v (some b) with
      | .error e => .error e
      | .ok out =>
        match walk_by_structure st rest fn with
        | .error e => .error e
        | .ok restOut => .ok ((k, Tree.leaf out) :: restOut)
    | none =>
      match fn k v none with
      | .error e => .error e
      | .ok out =>
        match walk_by_structure st rest fn with
        | .error e => .error e
        | .ok restOut => .ok ((k, Tree.leaf out) :: restOut)
  | (k, Tree.node sub) :: rest =>
    match List.lookup k st with
    | some (Tree.leaf _) => .error .structureMismatch
    | some (Tree.node l) =>
      match walk_by_structure l sub fn with
      | .error e => .error e
      | .ok subOut =>
        match walk_by_structure st rest fn with
        | .error e => .error e
        | .ok restOut => .ok ((k, Tree.node subOut) :: restOut)
    | none =>
      match walk_by_structure ([] : Entries β) sub fn with
      | .error e => .error e
      | .ok subOut =>
        match walk_by_structure st rest fn with
        | .error e => .error e
        | .ok restOut => .ok ((k, Tree.node subOut) :: restOut)
  termination_by sizeOf data

/-- Modelled from the spec: the same structural transform
(spec section 4.1) in its state-threading instance, used with the
fresh-salt source of issuance (case 1 of the spec's four uses); the leaf
function is total but consumes a state (the salt source position). -/
def walk_by_structure_st (st : Entries β) (data : Entries α)
    (fn : String → α → Option β → σ → γ × σ) (s : σ) :
    Except Err (Entries γ × σ) :=
  match data with
  | [] => .ok ([], s)
  | (k, Tree.leaf v) :: rest =>
    match List.lookup k st with
    | some (Tree.node _) => .error .structureMismatch
    | some (Tree.leaf b) =>
      match fn k v (some b) s with
      | (out, s1) =>
        match walk_by_structure_st st rest fn s1 with
        | .error e => .error e
        | .ok (restOut, s2) => .ok ((k, Tree.leaf out) :: restOut, s2)
    | none =>
      match fn k v none s with
      | (out, s1) =>
        match walk_by_structure_st st rest fn s1 with
        | .error e => .error e
        | .ok (restOut, s2) => .ok ((k, Tree.leaf out) :: restOut, s2)
  | (k, Tree.node sub) :: rest =>
    match List.lookup k st with
    | some (Tree.leaf _) => .error .structureMismatch
    | some (Tree.node l) =>
      match walk_by_structure_st l sub fn s with
      | .error e => .error e
      | .ok (subOut, s1) =>
        match walk_by_structure_st st rest fn s1 with
        | .error e => .error e
        | .ok (restOut, s2) => .ok ((k, Tree.node subOut) :: restOut, s2)
    | none =>
      match walk_by_structure_st ([] : Entries β) sub fn s with
      | .error e => .error e
      | .ok (subOut, s1) =>
        match walk_by_structure_st st rest fn s1 with
        | .error e => .error e
        | .ok (restOut, s2) => .ok ((k, Tree.node subOut) :: restOut, s2)
  termination_by sizeOf data

/-- Modelled from the spec: the signing algorithm identifier
`DEFAULT_SIGNIGN_ALG` (`sd_jwt/demo_settings.py`, not under `src/`), an
externally supplied configuration constant. -/
def DEFAULT_SIGNIGN_ALG : String := "ES256"

/-- Source constant `DEFAULT_EXP_MINS = 15`. -/
def DEFAULT_EXP_MINS : Int := 15

/-- Opaque key handle (`jwcrypto.jwk.JWK`): an identifier naming the
key pair.  The same handle serves as private (signing) and public
(verification) side, as a jwcrypto `JWK` does. -/
structure JWK where
  kid : Nat
deriving DecidableEq, Repr

/-- Canonical public-key representation, the result of
`JWK.export_public(as_dict=True)`.  As a JSON object it is nonempty,
hence truthy in Python. -/
structure PubKey where
  kid : Nat
deriving DecidableEq, Repr

/-- Source `key.export_public(as_dict=True)`: the canonical public
representation of a key handle.  `JWK.from_json(dumps(r))` of such a
representation returns a key equal (by jwcrypto public-key equality) to
any handle with the same public part, so the comparison in
`_verify_sd_jwt_release` is modelled as equality on `PubKey`. -/
def export_public (k : JWK) : PubKey := ⟨k.kid⟩

/-- Issuer-signed SD token payload.  Fields model the entries of the
source's `sd_jwt_payload` dict; `sd_claims` models the entry under the
configured `SD_CLAIMS_KEY` field name and `Option` models its possible
absence from a foreign token's payload, as does `sub_jwk`. -/
structure SdJwtPayload where
  iss : String
  sub_jwk : Option PubKey
  iat : Int
  exp : Int
  sd_claims : Option (Entries String)
deriving Repr

/-- Holder-signed release token payload (`sd_jwt_release_payload`). -/
structure ReleasePayload where
  nonce : String
  aud : String
  sd_claims : Option (Entries JVal)
deriving Repr

/-- SVC payload `{SD_CLAIMS_KEY: DisclosureTree}`.  The base64url
serialization the holder stores is a bijective transport encoding and
is modelled by the payload itself. -/
structure SvcPayload where
  sd_claims : Entries JVal
deriving Repr

/-- One dot-separated segment of a compact serialized JWS.  A compact
token is `header.payload.signature`; the payload segment carries the
(base64url-encoded JSON) payload and the signature segment records
which key produced the signature, modelling an unforgeable signing
primitive. -/
inductive Seg where
  | header (alg : String)
  | sdBody (p : SdJwtPayload)
  | relBody (p : ReleasePayload)
  | sig (kid : Nat)
deriving Repr

/-- Python `x or default` on an optional integer argument: `None` and
`0` are both falsy, so either selects the default. -/
def pyOrInt (x : Option Int) (dflt : Int) : Int :=
  match x with
  | none => dflt
  | some n => if n = 0 then dflt else n

/-- Python truthiness of an optional string argument: `None` and the
empty string are falsy. -/
def pyTruthyStr : Option String → Bool
  | none => false
  | some s => !(s == "")

/-- Python truthiness of an optional key argument: a `JWK` object is
truthy, `None` is falsy. -/
def pyTruthyKey : Option JWK → Bool
  | none => false
  | some _ => true

/-- Alphabet of URL-safe base64 (`base64.urlsafe_b64encode`). -/
def b64UrlAlphabet : List Char :=
  "ABCDEFGHIJKLMNOPQRSTUVWXYZabcdefghijklmnopqrstuvwxyz0123456789-_".data

/-- Character of the URL-safe base64 alphabet at a 6-bit index. -/
def b64Char (n : Nat) : Char := b64UrlAlphabet.getD n 'A'

/-- URL-safe base64 encoding of a byte list, with `=` padding. -/
def b64UrlEncode : List Nat → List Char
  | [] => []
  | [a] => [b64Char (a / 4), b64Char (a % 4 * 16), '=', '=']
  | [a, b] => [b64Char (a / 4), b64Char (a % 4 * 16 + b / 16), b64Char (b % 16 * 4), '=']
  | a :: b :: c :: rest =>
    [b64Char (a / 4), b64Char (a % 4 * 16 + b / 16), b64Char (b % 16 * 4 + c / 64),
     b64Char (c % 64)] ++ b64UrlEncode rest

/-- Python `str.strip("=")`: remove `=` from both ends. -/
def stripEq (cs : List Char) : List Char :=
  ((cs.dropWhile (· = '=')).reverse.dropWhile (· = '=')).reverse

/-- Source `generate_salt`: sixteen bytes drawn by successive calls to
`random.getrandbits(8)` — the stdlib `random` module's Mersenne Twister,
a general-purpose PRNG — URL-safe base64 encoded and stripped of `=`
padding.  The PRNG is modelled by the explicit stream `randbits` of its
successive 8-bit outputs, so the salt is a deterministic function of
the PRNG state. -/
def generate_salt (randbits : Nat → Nat) : String :=
  String.mk (stripEq (b64UrlEncode ((List.range 16).map (fun i => randbits i % 256))))

/-- Option-to-JSON coercion for the salt slot: the source hands
`structure.get(key)` to `hash_claim`, so an absent salt is Python
`None`, serialized by `json.dumps` as JSON `null`. -/
def jsaltOf : Option String → JVal
  | some s => .str s
  | none => .null

/-- Source `_create_sd_claim_entry(key, value, salt)`: the salted
commitment `hash_claim(salt, value)`; the key argument is unused. -/
def _create_sd_claim_entry (key : String) (value : JVal) (salt : Option String) : String :=
  hash_claim (jsaltOf salt) value

/-- Source `_create_svc_entry(key, value, salt)`: the raw disclosure
entry `hash_claim(salt, value, return_raw=True)`; the key argument is
unused. -/
def _create_svc_entry (key : String) (value : JVal) (salt : Option String) : JVal :=
  hash_claim_raw (jsaltOf salt) value

/-- Leaf function of the salt-generation walk,
`lambda _, __, ___=None: generate_salt()`: every leaf draws the next
salt from the supplied source (the successive outputs of
`generate_salt`), threading the source position as state. -/
def freshSaltFn (supply : Nat → String) :
    String → JVal → Option JVal → Nat → String × Nat :=
  fun _ _ _ n => (supply n, n + 1)

/-- Leaf function of the release walk, `lambda _, __, raw: raw`: pull
the stored raw disclosure entry for the chosen key.  Per spec section
4.4 a chosen key with no corresponding disclosure entry fails the
release with `StructureMismatch` (modelled from the spec; the walk
itself is not under `src/`). -/
def releaseEntryFn : String → JVal → Option JVal → Except Err JVal :=
  fun _ _ raw =>
    match raw with
    | some r => .ok r
    | none => .error .structureMismatch

/-- Source `create_sd_jwt_and_svc`: generate the salt tree over
`(claim_structure, user_claims)`, resolve `iat`/`exp` defaults by
Python truthiness, assemble and sign the SD-JWT payload with the
issuer's key, and build the SVC disclosure container.  The wall clock
`int(datetime.utcnow().timestamp())` and the salt source are threaded
in explicitly (`now`, `saltSupply`). -/
def create_sd_jwt_and_svc (user_claims : Entries JVal) (issuer : String)
    (issuer_key : JWK) (holder_key : JWK) (claim_structure : Entries JVal)
    (iat : Option Int) (exp : Option Int) (now : Int)
    (saltSupply : Nat → String) :
    Except Err (SdJwtPayload × List Seg × SvcPayload) :=
  match walk_by_structure_st claim_structure user_claims (freshSaltFn saltSupply) 0 with
  | .error e => .error e
  | .ok (salts, _) =>
    let _iat := pyOrInt iat now
    let _exp := pyOrInt exp (_iat + DEFAULT_EXP_MINS * 60)
    match walk_by_structure salts user_claims
        (fun k v os => .ok (_create_sd_claim_entry k v os)) with
    | .error e => .error e
    | .ok commitments =>
      let sd_jwt_payload : SdJwtPayload :=
        { iss := issuer, sub_jwk := some (export_public holder_key),
          iat := _iat, exp := _exp, sd_claims := some commitments }
      match walk_by_structure salts user_claims
          (fun k v os => .ok (_create_svc_entry k v os)) with
      | .error e => .error e
      | .ok svcTree =>
        let svc_payload : SvcPayload := { sd_claims := svcTree }
        .ok (sd_jwt_payload,
             [Seg.header DEFAULT_SIGNIGN_ALG, Seg.sdBody sd_jwt_payload,
              Seg.sig issuer_key.kid],
             svc_payload)

/-- Source `create_release_jwt`: decode the SVC container (a bijective
transport encoding, modelled by the payload itself), pull the raw
disclosure entries for the chosen claims, and sign the release payload
with the holder's key. -/
def create_release_jwt (nonce : String) (aud : String)
    (disclosed_claims : Entries JVal) (serialized_svc : SvcPayload)
    (holder_key : JWK) : Except Err (ReleasePayload × List Seg) :=
  let hash_raw_values := serialized_svc.sd_claims
  match walk_by_structure hash_raw_values disclosed_claims releaseEntryFn with
  | .error e => .error e
  | .ok rel =>
    let sd_jwt_release_payload : ReleasePayload :=
      { nonce := nonce, aud := aud, sd_claims := some rel }
    .ok (sd_jwt_release_payload,
         [Seg.header DEFAULT_SIGNIGN_ALG, Seg.relBody sd_jwt_release_payload,
          Seg.sig holder_key.kid])

/-- Source `_verify_sd_jwt`: deserialize the three-segment token, check
the issuer's signature, check `iss`, require the commitments field, and
capture the embedded holder key (`sub_jwk`) when present. -/
def _verify_sd_jwt (sd_jwt : List Seg) (issuer_public_key : JWK)
    (expected_issuer : String) : Except Err (Entries String × Option PubKey) :=
  match sd_jwt with
  | [Seg.header _, Seg.sdBody p, Seg.sig k] =>
    if k = issuer_public_key.kid then
      if p.iss ≠ expected_issuer then .error .invalidIssuer
      else
        match p.sd_claims with
        | none => .error .missingCommitments
        | some claims => .ok (claims, p.sub_jwk)
    else .error .signatureInvalid
  | _ => .error .deserializeError

/-- Source `_verify_sd_jwt_release`: deserialize the three-segment
release token; when both a holder key and an embedded key payload are
present (`if holder_public_key and holder_public_key_payload`), compare
them and fail `HolderKeyMismatch` on inequality; when a holder key is
supplied, check the release signature against it; parse the payload;
when a holder key is supplied, compare `aud` and `nonce` against the
expected values (Python `!=` against the possibly-`None` argument,
modelled by comparison with the `Option`); finally require the
commitments field. -/
def _verify_sd_jwt_release (sd_jwt_release : List Seg)
    (holder_public_key : Option JWK) (expected_aud : Option String)
    (expected_nonce : Option String)
    (holder_public_key_payload : Option PubKey) : Except Err (Entries JVal) :=
  match sd_jwt_release with
  | [Seg.header _, Seg.relBody p, Seg.sig k] =>
    match (match holder_public_key, holder_public_key_payload with
           | some hk, some pl =>
             if export_public hk = pl then Except.ok () else Except.error Err.holderKeyMismatch
           | _, _ => Except.ok ()) with
    | .error e => .error e
    | .ok () =>
      match (match holder_public_key with
             | some hk => if k = hk.kid then Except.ok () else Except.error Err.signatureInvalid
             | none => Except.ok ()) with
      | .error e => .error e
      | .ok () =>
        match (match holder_public_key with
               | some _ =>
                 if some p.aud ≠ expected_aud then Except.error Err.invalidAudience
                 else if some p.nonce ≠ expected_nonce then .error .invalidNonce
                 else Except.ok ()
               | none => Except.ok ()) with
        | .error e => .error e
        | .ok () =>
          match p.sd_claims with
          | none => .error .missingCommitments
          | some claims => .ok claims
  | _ => .error .deserializeError

/-- Source `_check_claim`: recompute the digest of the released raw
entry and compare it (constant-time `secrets.compare_digest`,
functionally equality) against the commitment from the SD-JWT; on
success require the entry to parse as a two-element array and return
its element 1, the claim value. -/
def _check_claim (claim_name : String) (released_value : JVal)
    (sd_jwt_claim_value : String) : Except Err JVal :=
  let hashed_release_value := hash_raw (dumps released_value)
  if ¬ compare_digest hashed_release_value sd_jwt_claim_value then
    .error .commitmentMismatch
  else
    match released_value with
    | .arr decoded =>
      if decoded.length ≠ 2 then .error .malformedDisclosure
      else .ok (decoded.getD 1 .null)
    | _ => .error .malformedDisclosure

/-- Leaf function of the verification walk.  The source hands
`_check_claim` straight to the walk, whose third argument is the
commitment at the released key when present; per spec section 4.1
(case 4) an absent commitment for a released key is a hard
`StructureMismatch` failure (modelled from the spec; the walk itself is
not under `src/`, and the source would fail on the absent value). -/
def checkClaimFn : String → JVal → Option String → Except Err JVal :=
  fun k v oc =>
    match oc with
    | some c => _check_claim k v c
    | none => .error .structureMismatch

/-- Source `verify`: require audience and nonce whenever a holder key
is supplied (Python truthiness, so empty strings count as absent);
require exactly six presentation segments; verify the SD-JWT and the
release token; re-derive the disclosed claims by pairing the commitment
tree against the released entries with `_check_claim`. -/
def verify (combined_presentation : List Seg) (issuer_public_key : JWK)
    (expected_issuer : String) (holder_public_key : Option JWK)
    (expected_aud : Option String) (expected_nonce : Option String) :
    Except Err (Entries JVal) :=
  if pyTruthyKey holder_public_key &&
      (!pyTruthyStr expected_aud || !pyTruthyStr expected_nonce) then
    .error .invalidArguments
  else if combined_presentation.length ≠ 6 then .error .malformedPresentation
  else
    match _verify_sd_jwt (combined_presentation.take 3) issuer_public_key
        expected_issuer with
    | .error e => .error e
    | .ok (sd_jwt_claims, holder_public_key_payload) =>
      match _verify_sd_jwt_release (combined_presentation.drop 3) holder_public_key
          expected_aud expected_nonce holder_public_key_payload with
      | .error e => .error e
      | .ok sd_jwt_release_claims =>
        walk_by_structure sd_jwt_claims sd_jwt_release_claims checkClaimFn

/-! Shape predicates and specification-side functions used to state the
round-trip and release claims. -/

mutual

/-- Key-skeleton equality of two trees: leaf against leaf, or mapping
against mapping with equal key lists in order and recursively equal
skeletons.  Every walk output carries the skeleton of its data input. -/
def skelEqT : Tree α → Tree β → Bool
  | .leaf _, .leaf _ => true
  | .node l1, .node l2 => skelEqL l1 l2
  | _, _ => false

/-- Entry-list level of `skelEqT`. -/
def skelEqL : Entries α → Entries β → Bool
  | [], [] => true
  | (k1, t1) :: r1, (k2, t2) :: r2 => k1 == k2 && skelEqT t1 t2 && skelEqL r1 r2
  | _, _ => false

end

mutual

/-- Sub-selection shape: the selector tree is a leaf exactly where the
selected tree is a leaf, and a mapping whose every key looks up a
congruent subtree of the selected mapping.  This is the shape
discipline of a release's chosen claim subset. -/
def subShapeT : Tree α → Tree β → Bool
  | .leaf _, .leaf _ => true
  | .node ch, .node m => subShapeL ch m
  | _, _ => false

/-- Entry-list level of `subShapeT`: every chosen entry selects, by key
lookup, a congruent subtree. -/
def subShapeL : Entries α → Entries β → Bool
  | [], _ => true
  | (k, t) :: rest, m =>
    (match List.lookup k m with
     | some u => subShapeT t u
     | none => false) && subShapeL rest m

end

/-- The subset of claim tree `c` selected by the keys of `ch`: the
result has the shape of `ch` with every leaf replaced by `c`'s value at
the selected path (default branches are unreachable under
`subShapeL ch c`). -/
def subSelectL (c : Entries JVal) (ch : Entries α) : Entries JVal :=
  match ch with
  | [] => []
  | (k, Tree.leaf _) :: rest =>
    (k, match List.lookup k c with
        | some (Tree.leaf v) => Tree.leaf v
        | _ => Tree.leaf JVal.null) :: subSelectL c rest
  | (k, Tree.node sub) :: rest =>
    (k, Tree.node (subSelectL
        (match List.lookup k c with
         | some (Tree.node m) => m
         | _ => []) sub)) :: subSelectL c rest
  termination_by sizeOf ch

mutual

/-- Duplicate-free key discipline of a claim tree, at every mapping
level — as holds of every tree arising from Python dicts, whose keys
are unique by construction. -/
def nodupT : Tree α → Bool
  | .leaf _ => true
  | .node l => nodupL l

/-- Entry-list level of `nodupT`. -/
def nodupL : Entries α → Bool
  | [] => true
  | (k, t) :: rest => (List.lookup k rest).isNone && nodupT t && nodupL rest

end

/-- Structure/data compatibility: the walk's recursion meets no
leaf-against-mapping mismatch anywhere, so a walk with a total leaf
function succeeds.  The recursion mirrors `walk_by_structure`. -/
def compatL (st : Entries β) (data : Entries α) : Bool :=
  match data with
  | [] => true
  | (k, Tree.leaf _) :: rest =>
    (match List.lookup k st with
     | some (Tree.node _) => false
     | _ => true) && compatL st rest
  | (k, Tree.node sub) :: rest =>
    (match List.lookup k st with
     | some (Tree.leaf _) => false
     | some (Tree.node l) => compatL l sub
     | none => compatL ([] : Entries β) sub) && compatL st rest
  termination_by sizeOf data

/-- Leaf value of an optional looked-up structure subtree, as the walk
passes it to its leaf function. -/
def optLeaf : Option (Tree β) → Option β
  | some (Tree.leaf b) => some b
  | _ => none

/-- Entry list of an optional looked-up structure subtree
(`structure.get(k, {})` of the walk's recursion). -/
def subEntries : Option (Tree β) → Entries β
  | some (Tree.node l) => l
  | _ => []

/-- Total mirror of the walk's success path: the output has the data's
skeleton, each leaf carrying `g key value (structure leaf at the key)`;
branches the walk would reject are mapped anyway (unreachable under
`compatL`). -/
def zipL (st : Entries β) (data : Entries α)
    (g : String → α → Option β → γ) : Entries γ :=
  match data with
  | [] => []
  | (k, Tree.leaf v) :: rest =>
    (k, Tree.leaf (g k v (optLeaf (List.lookup k st)))) :: zipL st rest g
  | (k, Tree.node sub) :: rest =>
    (k, Tree.node (zipL (subEntries (List.lookup k st)) sub g)) :: zipL st rest g
  termination_by sizeOf data

/-- Pure content of the release walk's leaf function on the success
path: the raw disclosure entry looked up for the chosen key. -/
def pickRaw : String → JVal → Option JVal → JVal :=
  fun _ _ raw => raw.getD JVal.null

mutual

/-- Some leaf occurs somewhere in the tree. -/
def hasLeafT : Tree α → Bool
  | .leaf _ => true
  | .node l => hasLeafL l

/-- Some leaf occurs somewhere under the entry list. -/
def hasLeafL : Entries α → Bool
  | [] => false
  | (_, t) :: rest => hasLeafT t || hasLeafL rest

end

/-- Some chosen claim (a leaf position of `ch`) has no corresponding
raw disclosure entry (a leaf) at its path in the disclosure tree `st`:
its key is absent, or resolves to a subtree where a claim was chosen,
or a chosen subtree resolves to a single entry. -/
def missingL (st : Entries β) (ch : Entries α) : Bool :=
  match ch with
  | [] => false
  | (k, Tree.leaf _) :: rest =>
    (match List.lookup k st with
     | some (Tree.leaf _) => false
     | _ => true) || missingL st rest
  | (k, Tree.node sub) :: rest =>
    (match List.lookup k st with
     | some (Tree.node l) => missingL l sub
     | some (Tree.leaf _) => hasLeafL sub
     | none => missingL ([] : Entries β) sub) || missingL st rest
  termination_by sizeOf ch

/-- The SD-JWT payload `create_sd_jwt_and_svc` assembles, given the
generated salt tree `S` — a specification-side abbreviation used to
state the round-trip theorem. -/
def sdPayloadOf (issuer : String) (holder_key : JWK) (iat exp : Option Int)
    (now : Int) (S : Entries String) (C : Entries JVal) : SdJwtPayload :=
  { iss := issuer, sub_jwk := some (export_public holder_key),
    iat := pyOrInt iat now,
    exp := pyOrInt exp (pyOrInt iat now + DEFAULT_EXP_MINS * 60),
    sd_claims := some (zipL S C _create_sd_claim_entry) }

/-! Helper lemmas shared between claim theorems. -/

theorem verify_invalidArguments_of_falsy (cp : List Seg) (ipk : JWK)
    (ei : String) (hk : JWK) (ea en : Option String)
    (h : pyTruthyStr ea = false ∨ pyTruthyStr en = false) :
    verify cp ipk ei (some hk) ea en = .error .invalidArguments := by
  unfold verify
  rcases h with h | h <;> simp [pyTruthyKey, h]

theorem create_payload_fields (C : Entries JVal) (issuer : String) (ik hk : JWK)
    (cs : Entries JVal) (iat exp : Option Int) (now : Int) (supply : Nat → String)
    (pl : SdJwtPayload) (segs : List Seg) (svc : SvcPayload)
    (h : create_sd_jwt_and_svc C issuer ik hk cs iat exp now supply =
      .ok (pl, segs, svc)) :
    pl.iss = issuer ∧ pl.sub_jwk = some (export_public hk) ∧
    pl.iat = pyOrInt iat now ∧
    pl.exp = pyOrInt exp (pyOrInt iat now + DEFAULT_EXP_MINS * 60) := by
  unfold create_sd_jwt_and_svc at h
  split at h
  · simp at h
  · split at h
    · simp at h
    · split at h
      · simp at h
      · simp only [Except.ok.injEq, Prod.mk.injEq] at h
        obtain ⟨h1, -, -⟩ := h
        subst h1
        exact ⟨rfl, rfl, rfl, rfl⟩

theorem zipL_lookup (st : Entries β) (data : Entries α)
    (g : String → α → Option β → γ) (k : String) :
    List.lookup k (zipL st data g) =
      (match List.lookup k data with
       | none => none
       | some (Tree.leaf v) =>
         some (Tree.leaf (g k v (optLeaf (List.lookup k st))))
       | some (Tree.node sub) =>
         some (Tree.node (zipL (subEntries (List.lookup k st)) sub g))) := by
  induction data with
  | nil => simp [zipL]
  | cons hd rest ih =>
    obtain ⟨k2, t⟩ := hd
    cases t with
    | leaf v =>
      cases hbeq : (k == k2) with
      | true =>
        have hk : k = k2 := eq_of_beq hbeq
        subst hk
        simp [zipL, List.lookup]
      | false => simp [zipL, List.lookup, hbeq, ih]
    | node sub =>
      cases hbeq : (k == k2) with
      | true =>
        have hk : k = k2 := eq_of_beq hbeq
        subst hk
        simp [zipL, List.lookup]
      | false => simp [zipL, List.lookup, hbeq, ih]

theorem skel_lookup (S : Entries β) (C : Entries α) (hs : skelEqL S C = true)
    (k : String) :
    (List.lookup k C = none → List.lookup k S = none) ∧
    (∀ t, List.lookup k C = some t →
      ∃ u, List.lookup k S = some u ∧ skelEqT u t = true) := by
  induction C generalizing S with
  | nil =>
    cases S with
    | nil => simp
    | cons hd tl => simp [skelEqL] at hs
  | cons hd rest ih =>
    obtain ⟨k2, t2⟩ := hd
    cases S with
    | nil => simp [skelEqL] at hs
    | cons shd stl =>
      obtain ⟨k1, t1⟩ := shd
      simp only [skelEqL, Bool.and_eq_true] at hs
      obtain ⟨⟨hk, ht⟩, hrest⟩ := hs
      have hk12 : k1 = k2 := eq_of_beq hk
      subst hk12
      cases hbeq : (k == k1) with
      | true =>
        constructor
        · intro hn
          simp [List.lookup, hbeq] at hn
        · intro t hl
          simp only [List.lookup, hbeq] at hl ⊢
          exact ⟨t1, rfl, by rw [← Option.some_inj.mp hl]; exact ht⟩
      | false =>
        constructor
        · intro hn
          simp only [List.lookup, hbeq] at hn ⊢
          exact (ih stl hrest).1 hn
        · intro t hl
          simp only [List.lookup, hbeq] at hl ⊢
          exact (ih stl hrest).2 t hl

theorem cover_rest (st : Entries β) (k : String) (t0 : Tree α)
    (rest : Entries α)
    (hcov : ∀ k2 t, List.lookup k2 ((k, t0) :: rest) = some t →
      ∃ u, List.lookup k2 st = some u ∧ skelEqT u t = true)
    (hnone : (List.lookup k rest).isNone = true) :
    ∀ k2 t, List.lookup k2 rest = some t →
      ∃ u, List.lookup k2 st = some u ∧ skelEqT u t = true := by
  intro k2 t h2
  refine hcov k2 t ?_
  have hk2 : (k2 == k) = false := by
    cases hbeq : (k2 == k) with
    | false => rfl
    | true =>
      have hkk : k2 = k := eq_of_beq hbeq
      subst hkk
      rw [h2] at hnone
      simp at hnone
  simp [List.lookup, hk2, h2]

theorem compat_of_cover (st : Entries β) (data : Entries α)
    (hcov : ∀ k t, List.lookup k data = some t →
      ∃ u, List.lookup k st = some u ∧ skelEqT u t = true)
    (hnd : nodupL data = true) : compatL st data = true :=
  match data with
  | [] => by simp [compatL]
  | (k, Tree.leaf v) :: rest => by
    simp only [nodupL, Bool.and_eq_true] at hnd
    obtain ⟨⟨hnone, -⟩, hndr⟩ := hnd
    rw [compatL, Bool.and_eq_true]
    constructor
    · obtain ⟨u, hu, hsk⟩ := hcov k (Tree.leaf v) (by simp [List.lookup])
      rw [hu]
      cases u with
      | leaf b => rfl
      | node l => simp [skelEqT] at hsk
    · exact compat_of_cover st rest (cover_rest st k _ rest hcov hnone) hndr
  | (k, Tree.node sub) :: rest => by
    simp only [nodupL, Bool.and_eq_true] at hnd
    obtain ⟨⟨hnone, hndsub⟩, hndr⟩ := hnd
    rw [compatL, Bool.and_eq_true]
    constructor
    · obtain ⟨u, hu, hsk⟩ := hcov k (Tree.node sub) (by simp [List.lookup])
      rw [hu]
      cases u with
      | leaf b => simp [skelEqT] at hsk
      | node l =>
        show compatL l sub = true
        refine compat_of_cover l sub ?_ (by simpa [nodupT] using hndsub)
        intro k2 t2 h2
        exact (skel_lookup l sub (by simpa [skelEqT] using hsk) k2).2 t2 h2
    · exact compat_of_cover st rest (cover_rest st k _ rest hcov hnone) hndr
  termination_by sizeOf data

theorem walk_total (st : Entries β) (data : Entries α)
    (fn : String → α → Option β → Except Err γ)
    (g : String → α → Option β → γ)
    (hfn : ∀ k a ob, fn k a ob = .ok (g k a ob))
    (hc : compatL st data = true) :
    walk_by_structure st data fn = .ok (zipL st data g) :=
  match data with
  | [] => by simp [walk_by_structure, zipL]
  | (k, Tree.leaf v) :: rest => by
    rw [compatL, Bool.and_eq_true] at hc
    obtain ⟨hhead, hrest⟩ := hc
    have hre := walk_total st rest fn g hfn hrest
    cases hlk : List.lookup k st with
    | none =>
      simp only [walk_by_structure, zipL]
      rw [hlk]
      simp [hfn, hre, optLeaf]
    | some u =>
      cases u with
      | leaf b =>
        simp only [walk_by_structure, zipL]
        rw [hlk]
        simp [hfn, hre, optLeaf]
      | node l =>
        rw [hlk] at hhead
        simp at hhead
  | (k, Tree.node sub) :: rest => by
    rw [compatL, Bool.and_eq_true] at hc
    obtain ⟨hhead, hrest⟩ := hc
    have hre := walk_total st rest fn g hfn hrest
    cases hlk : List.lookup k st with
    | none =>
      rw [hlk] at hhead
      have hsub := walk_total ([] : Entries β) sub fn g hfn hhead
      simp only [walk_by_structure, zipL]
      rw [hlk]
      simp [hsub, hre, subEntries]
    | some u =>
      cases u with
      | leaf b =>
        rw [hlk] at hhead
        simp at hhead
      | node l =>
        rw [hlk] at hhead
        have hsub := walk_total l sub fn g hfn hhead
        simp only [walk_by_structure, zipL]
        rw [hlk]
        simp [hsub, hre, subEntries]
  termination_by sizeOf data

theorem zipL_skel (st : Entries β) (data : Entries α)
    (g : String → α → Option β → γ) : skelEqL (zipL st data g) data = true :=
  match data with
  | [] => by simp [zipL, skelEqL]
  | (k, Tree.leaf v) :: rest => by
    simp only [zipL, skelEqL]
    simp [skelEqT, zipL_skel st rest g]
  | (k, Tree.node sub) :: rest => by
    simp only [zipL, skelEqL]
    simp [skelEqT, zipL_skel (subEntries (List.lookup k st)) sub g,
      zipL_skel st rest g]
  termination_by sizeOf data

theorem subShape_transfer (ch : Entries α) (C : Entries β) (R : Entries γ)
    (hsub : subShapeL ch C = true) (hskel : skelEqL R C = true) :
    subShapeL ch R = true :=
  match ch with
  | [] => by simp [subShapeL]
  | (k, t) :: rest => by
    simp only [subShapeL, Bool.and_eq_true] at hsub ⊢
    obtain ⟨hhead, hrest⟩ := hsub
    refine ⟨?_, subShape_transfer rest C R hrest hskel⟩
    cases hlkC : List.lookup k C with
    | none =>
      rw [hlkC] at hhead
      simp at hhead
    | some ct =>
      rw [hlkC] at hhead
      have hh : subShapeT t ct = true := hhead
      obtain ⟨u, hu, hsk⟩ := (skel_lookup R C hskel k).2 ct hlkC
      rw [hu]
      show subShapeT t u = true
      cases t with
      | leaf v =>
        cases ct with
        | leaf cv =>
          cases u with
          | leaf b => rfl
          | node l => simp [skelEqT] at hsk
        | node m => simp [subShapeT] at hh
      | node sub =>
        cases ct with
        | leaf cv => simp [subShapeT] at hh
        | node m =>
          cases u with
          | leaf b => simp [skelEqT] at hsk
          | node l =>
            show subShapeL sub l = true
            exact subShape_transfer sub m l (by simpa [subShapeT] using hh)
              (by simpa [skelEqT] using hsk)
  termination_by sizeOf ch

theorem walkSt_empty_ok (data : Entries α)
    (fn : String → α → Option β → σ → γ × σ) (s : σ) :
    ∃ out s2,
      walk_by_structure_st ([] : Entries β) data fn s = .ok (out, s2) ∧
      skelEqL out data = true :=
  match data with
  | [] => ⟨[], s, by simp [walk_by_structure_st, skelEqL]⟩
  | (k, Tree.leaf v) :: rest => by
    rcases hf : fn k v none s with ⟨out1, s1⟩
    obtain ⟨restOut, s2, hrest, hskel⟩ := walkSt_empty_ok rest fn s1
    refine ⟨(k, Tree.leaf out1) :: restOut, s2, ?_, ?_⟩
    · simp only [walk_by_structure_st]
      rw [show (List.lookup k ([] : Entries β)) = none from rfl, hf]
      simp [hrest]
    · simp [skelEqL, skelEqT, hskel]
  | (k, Tree.node sub) :: rest => by
    obtain ⟨subOut, s1, hsub, hskels⟩ := walkSt_empty_ok sub fn s
    obtain ⟨restOut, s2, hrest, hskelr⟩ := walkSt_empty_ok rest fn s1
    refine ⟨(k, Tree.node subOut) :: restOut, s2, ?_, ?_⟩
    · simp only [walk_by_structure_st]
      rw [show (List.lookup k ([] : Entries β)) = none from rfl]
      simp [hsub, hrest]
    · simp [skelEqL, skelEqT, hskels, hskelr]
  termination_by sizeOf data

theorem check_claim_roundtrip (k : String) (v : JVal) (os : Option String) :
    _check_claim k (_create_svc_entry k v os) (_create_sd_claim_entry k v os) =
      .ok v := by
  unfold _check_claim _create_svc_entry _create_sd_claim_entry hash_claim
    hash_claim_raw compare_digest
  simp [List.getD]

theorem walk_release (R : Entries JVal) (ch : Entries JVal)
    (hs : subShapeL ch R = true) :
    walk_by_structure R ch releaseEntryFn = .ok (zipL R ch pickRaw) :=
  match ch with
  | [] => by simp [walk_by_structure, zipL]
  | (k, t) :: rest => by
    simp only [subShapeL, Bool.and_eq_true] at hs
    obtain ⟨hhead, hrest⟩ := hs
    have hre := walk_release R rest hrest
    cases hlk : List.lookup k R with
    | none =>
      rw [hlk] at hhead
      simp at hhead
    | some u =>
      rw [hlk] at hhead
      have hh : subShapeT t u = true := hhead
      cases t with
      | leaf v =>
        cases u with
        | node l => simp [subShapeT] at hh
        | leaf r =>
          simp only [walk_by_structure, zipL]
          rw [hlk]
          simp [releaseEntryFn, pickRaw, optLeaf, hre]
      | node sub =>
        cases u with
        | leaf r => simp [subShapeT] at hh
        | node l =>
          have hsubr := walk_release l sub (by simpa [subShapeT] using hh)
          simp only [walk_by_structure, zipL]
          rw [hlk]
          simp [subEntries, hsubr, hre]
  termination_by sizeOf ch

theorem walk_verify (ch : Entries JVal) (C : Entries JVal) (S : Entries String)
    (hsub : subShapeL ch C = true) (hskel : skelEqL S C = true) :
    walk_by_structure (zipL S C _create_sd_claim_entry)
      (zipL (zipL S C _create_svc_entry) ch pickRaw) checkClaimFn =
      .ok (subSelectL C ch) :=
  match ch with
  | [] => by simp [walk_by_structure, zipL, subSelectL]
  | (k, t) :: rest => by
    simp only [subShapeL, Bool.and_eq_true] at hsub
    obtain ⟨hhead, hrest⟩ := hsub
    have hre := walk_verify rest C S hrest hskel
    cases hlkC : List.lookup k C with
    | none =>
      rw [hlkC] at hhead
      simp at hhead
    | some ct =>
      rw [hlkC] at hhead
      have hh : subShapeT t ct = true := hhead
      cases t with
      | leaf v0 =>
        cases ct with
        | node m => simp [subShapeT] at hh
        | leaf v =>
          simp only [zipL, walk_by_structure, subSelectL]
          rw [zipL_lookup, zipL_lookup, hlkC]
          simp [optLeaf, pickRaw, checkClaimFn, check_claim_roundtrip, hre]
      | node sub =>
        cases ct with
        | leaf v => simp [subShapeT] at hh
        | node m =>
          have hsm : subShapeL sub m = true := by simpa [subShapeT] using hh
          obtain ⟨u, huS, husk⟩ := (skel_lookup S C hskel k).2 (Tree.node m) hlkC
          cases u with
          | leaf b => simp [skelEqT] at husk
          | node l =>
            have hlm : skelEqL l m = true := by simpa [skelEqT] using husk
            have hsubv := walk_verify sub m l hsm hlm
            simp only [zipL, walk_by_structure, subSelectL]
            rw [zipL_lookup, zipL_lookup, hlkC, huS]
            simp [subEntries, hsubv, hre]
  termination_by sizeOf ch

theorem walk_release_error_sm (st : Entries JVal) (ch : Entries JVal) (e : Err)
    (h : walk_by_structure st ch releaseEntryFn = .error e) :
    e = .structureMismatch :=
  match ch with
  | [] => by simp [walk_by_structure] at h
  | (k, Tree.leaf v) :: rest => by
    simp only [walk_by_structure] at h
    cases hlk : List.lookup k st with
    | none =>
      rw [hlk] at h
      simp only [releaseEntryFn] at h
      simp at h
      exact h.symm
    | some u =>
      cases u with
      | node l =>
        rw [hlk] at h
        simp at h
        exact h.symm
      | leaf b =>
        rw [hlk] at h
        simp only [releaseEntryFn] at h
        cases hwr : walk_by_structure st rest releaseEntryFn with
        | error e2 =>
          rw [hwr] at h
          simp at h
          subst h
          exact walk_release_error_sm st rest _ hwr
        | ok r =>
          rw [hwr] at h
          simp at h
  | (k, Tree.node sub) :: rest => by
    simp only [walk_by_structure] at h
    cases hlk : List.lookup k st with
    | none =>
      rw [hlk] at h
      dsimp only at h
      cases hws : walk_by_structure ([] : Entries JVal) sub releaseEntryFn with
      | error e2 =>
        rw [hws] at h
        simp at h
        subst h
        exact walk_release_error_sm ([] : Entries JVal) sub _ hws
      | ok r =>
        rw [hws] at h
        dsimp only at h
        cases hwr : walk_by_structure st rest releaseEntryFn with
        | error e2 =>
          rw [hwr] at h
          simp at h
          subst h
          exact walk_release_error_sm st rest _ hwr
        | ok r2 =>
          rw [hwr] at h
          simp at h
    | some u =>
      cases u with
      | leaf b =>
        rw [hlk] at h
        simp at h
        exact h.symm
      | node l =>
        rw [hlk] at h
        dsimp only at h
        cases hws : walk_by_structure l sub releaseEntryFn with
        | error e2 =>
          rw [hws] at h
          simp at h
          subst h
          exact walk_release_error_sm l sub _ hws
        | ok r =>
          rw [hws] at h
          dsimp only at h
          cases hwr : walk_by_structure st rest releaseEntryFn with
          | error e2 =>
            rw [hwr] at h
            simp at h
            subst h
            exact walk_release_error_sm st rest _ hwr
          | ok r2 =>
            rw [hwr] at h
            simp at h
  termination_by sizeOf ch

theorem walk_release_missing (st : Entries JVal) (ch : Entries JVal)
    (h : missingL st ch = true) :
    walk_by_structure st ch releaseEntryFn = .error .structureMismatch :=
  match ch with
  | [] => by simp [missingL] at h
  | (k, Tree.leaf v) :: rest => by
    simp only [missingL, Bool.or_eq_true] at h
    simp only [walk_by_structure]
    cases hlk : List.lookup k st with
    | none => simp [releaseEntryFn]
    | some u =>
      cases u with
      | node l => simp
      | leaf b =>
        rw [hlk] at h
        rcases h with hfalse | hrest
        · simp at hfalse
        · have hmr := walk_release_missing st rest hrest
          simp [releaseEntryFn, hmr]
  | (k, Tree.node sub) :: rest => by
    simp only [missingL, Bool.or_eq_true] at h
    simp only [walk_by_structure]
    cases hlk : List.lookup k st with
    | none =>
      rw [hlk] at h
      rcases h with hsub | hrest
      · have hms : missingL ([] : Entries JVal) sub = true := hsub
        have := walk_release_missing ([] : Entries JVal) sub hms
        simp [this]
      · cases hws : walk_by_structure ([] : Entries JVal) sub releaseEntryFn with
        | error e2 =>
          have he2 := walk_release_error_sm ([] : Entries JVal) sub e2 hws
          subst he2
          simp [hws]
        | ok r =>
          have hmr := walk_release_missing st rest hrest
          simp [hws, hmr]
    | some u =>
      cases u with
      | leaf b => simp
      | node l =>
        rw [hlk] at h
        rcases h with hsub | hrest
        · have hms : missingL l sub = true := hsub
          have := walk_release_missing l sub hms
          simp [this]
        · cases hws : walk_by_structure l sub releaseEntryFn with
          | error e2 =>
            have he2 := walk_release_error_sm l sub e2 hws
            subst he2
            simp [hws]
          | ok r =>
            have hmr := walk_release_missing st rest hrest
            simp [hws, hmr]
  termination_by sizeOf ch

/-! Claim theorems. -/

/-- C7: for every call to `verify` in which a holder public key is
supplied but the expected audience or the expected nonce is not
supplied (Python-falsy), `verify` fails with `InvalidArguments` — for
every combined presentation whatsoever, i.e. before any token is parsed
or any signature is checked. -/
theorem verify_requires_aud_and_nonce (cp : List Seg) (ipk : JWK)
    (ei : String) (hk : JWK) (ea en : Option String)
    (h : pyTruthyStr ea = false ∨ pyTruthyStr en = false) :
    verify cp ipk ei (some hk) ea en = .error .invalidArguments :=
  verify_invalidArguments_of_falsy cp ipk ei hk ea en h

theorem verify_requires_aud_and_nonce_witness :
    verify [] ⟨0⟩ "iss" (some ⟨1⟩) none (some "n") = .error .invalidArguments :=
  verify_requires_aud_and_nonce [] ⟨0⟩ "iss" ⟨1⟩ none (some "n") (Or.inl rfl)

/-- C10: supplying `holder_public_key` together with an empty-string
expected audience or empty-string expected nonce fails with
`InvalidArguments` even though both arguments were supplied: the empty
string is Python-falsy, indistinguishable from an absent argument. -/
theorem verify_empty_aud_nonce_invalid_arguments (cp : List Seg) (ipk : JWK)
    (ei : String) (hk : JWK) (ea en : Option String)
    (h : ea = some "" ∨ en = some "") :
    verify cp ipk ei (some hk) ea en = .error .invalidArguments := by
  apply verify_invalidArguments_of_falsy
  rcases h with h | h
  · left; rw [h]; rfl
  · right; rw [h]; rfl

theorem verify_empty_aud_nonce_invalid_arguments_witness :
    verify [] ⟨0⟩ "iss" (some ⟨1⟩) (some "") (some "n") = .error .invalidArguments :=
  verify_empty_aud_nonce_invalid_arguments [] ⟨0⟩ "iss" ⟨1⟩ (some "") (some "n")
    (Or.inl rfl)

/-- C9: passing `iat = 0` or `exp = 0` to `create_sd_jwt_and_svc` is
treated exactly like omitting the argument (`x or default` on a falsy
zero): the whole result of issuance coincides with the result for the
absent argument, so the payload's issuance timestamp becomes the
current time and the expiry becomes issuance plus 900 seconds. -/
theorem zero_iat_exp_like_omitted (C : Entries JVal) (issuer : String)
    (ik hk : JWK) (cs : Entries JVal) (iat exp : Option Int) (now : Int)
    (supply : Nat → String) :
    create_sd_jwt_and_svc C issuer ik hk cs (some 0) exp now supply =
      create_sd_jwt_and_svc C issuer ik hk cs none exp now supply ∧
    create_sd_jwt_and_svc C issuer ik hk cs iat (some 0) now supply =
      create_sd_jwt_and_svc C issuer ik hk cs iat none now supply := by
  constructor <;> simp [create_sd_jwt_and_svc, pyOrInt]

/-- C8 counterexample: with `exp = 0` supplied, the payload's expiry is
not the supplied value `0` but the default `iat + 900` (here `905`), so
a supplied `expires_at` is not always used unchanged. -/
theorem default_expiry_zero_counterexample :
    (create_sd_jwt_and_svc [] "i" ⟨1⟩ ⟨2⟩ [] (some 5) (some 0) 100
        (fun _ => "s")).map (fun r => r.1.exp) = .ok 905 ∧ (905 : Int) ≠ 0 := by
  constructor
  · simp [create_sd_jwt_and_svc, walk_by_structure_st, walk_by_structure, pyOrInt,
      DEFAULT_EXP_MINS, Except.map]
  · decide

/-- C8 (amended): when `expires_at` is not supplied — or is the
Python-falsy `0` — the signed payload's expiry equals the payload's
issuance timestamp plus 900 seconds; when a nonzero `expires_at` is
supplied the payload uses it unchanged. -/
theorem default_expiry (C : Entries JVal) (issuer : String) (ik hk : JWK)
    (cs : Entries JVal) (iat exp : Option Int) (now : Int)
    (supply : Nat → String) (pl : SdJwtPayload) (segs : List Seg)
    (svc : SvcPayload)
    (h : create_sd_jwt_and_svc C issuer ik hk cs iat exp now supply =
      .ok (pl, segs, svc)) :
    ((exp = none ∨ exp = some 0) →
      pl.exp = pl.iat + DEFAULT_EXP_MINS * 60) ∧
    (∀ e, exp = some e → e ≠ 0 → pl.exp = e) := by
  obtain ⟨-, -, hiat, hexp⟩ :=
    create_payload_fields C issuer ik hk cs iat exp now supply pl segs svc h
  constructor
  · rintro (rfl | rfl) <;> rw [hexp, hiat] <;> rfl
  · rintro e rfl he
    rw [hexp]
    simp [pyOrInt, he]

theorem default_expiry_witness :
    ({iss := "i", sub_jwk := some ⟨2⟩, iat := 100, exp := 1000,
      sd_claims := some []} : SdJwtPayload).exp =
    ({iss := "i", sub_jwk := some ⟨2⟩, iat := 100, exp := 1000,
      sd_claims := some []} : SdJwtPayload).iat + DEFAULT_EXP_MINS * 60 :=
  (default_expiry [] "i" ⟨1⟩ ⟨2⟩ [] none none 100 (fun _ => "s")
    {iss := "i", sub_jwk := some ⟨2⟩, iat := 100, exp := 1000,
     sd_claims := some []}
    [Seg.header DEFAULT_SIGNIGN_ALG,
     Seg.sdBody {iss := "i", sub_jwk := some ⟨2⟩, iat := 100, exp := 1000,
                 sd_claims := some []},
     Seg.sig 1] ⟨[]⟩
    (by simp [create_sd_jwt_and_svc, walk_by_structure_st, walk_by_structure,
      pyOrInt, DEFAULT_EXP_MINS, export_public])).1 (Or.inl rfl)

/-- C2: per-leaf disclosure check contract of `_check_claim`: it fails
with `CommitmentMismatch` exactly when the digest of the released raw
text differs from the expected commitment (the comparison is the
constant-time `secrets.compare_digest`, functionally string equality);
when the digests agree it returns element 1 of the two-element array
(the claim value), and fails with `MalformedDisclosure` exactly when
the released text is not a two-element array. -/
theorem check_claim_contract (claim_name : String) (r : JVal) (c : String) :
    (_check_claim claim_name r c = .error .commitmentMismatch ↔
      hash_raw (dumps r) ≠ c) ∧
    (hash_raw (dumps r) = c →
      ((∀ a b, r = .arr [a, b] → _check_claim claim_name r c = .ok b) ∧
       ((∀ a b, r ≠ .arr [a, b]) →
         _check_claim claim_name r c = .error .malformedDisclosure))) := by
  by_cases hc : hash_raw (dumps r) = c
  · refine ⟨?_, fun _ => ⟨?_, ?_⟩⟩
    · simp only [hc, ne_eq, not_true_eq_false, iff_false]
      intro h
      unfold _check_claim compare_digest at h
      rw [hc] at h
      simp only [beq_self_eq_true, not_true_eq_false, if_false] at h
      split at h
      · split at h <;> simp_all
      · simp_all
    · rintro a b rfl
      unfold _check_claim compare_digest
      rw [hc]
      simp [List.getD]
    · intro hno
      unfold _check_claim compare_digest
      rw [hc]
      cases r with
      | arr l =>
        have hl : l.length ≠ 2 := by
          intro h2
          obtain ⟨a, b, rfl⟩ := List.length_eq_two.mp h2
          exact hno a b rfl
        simp [hl]
      | _ => simp
  · refine ⟨?_, fun h => absurd h hc⟩
    simp only [ne_eq, hc, not_false_eq_true, iff_true]
    unfold _check_claim compare_digest
    have hb : (hash_raw (dumps r) == c) = false := beq_eq_false_iff_ne.mpr hc
    simp [hb]

theorem check_claim_contract_witness :
    _check_claim "k" (.arr [.str "s", .num 7])
      (hash_raw (dumps (.arr [.str "s", .num 7]))) = .ok (.num 7) :=
  ((check_claim_contract "k" (.arr [.str "s", .num 7])
    (hash_raw (dumps (.arr [.str "s", .num 7])))).2 rfl).1 (.str "s") (.num 7) rfl

/-- C6: when no holder public key is supplied to `verify`, the release
token's payload is structurally parsed but its signature is not checked
against any key, and neither the audience nor the nonce of the release
payload is compared to anything: the verification result is unchanged
under arbitrary replacement of the release payload's `aud` and `nonce`
and of the release signer's key, so verification can succeed regardless
of their values. -/
theorem anonymous_release_unchecked (ha hb : String) (ip : SdJwtPayload)
    (ik : Nat) (nonce1 aud1 nonce2 aud2 : String) (cl : Option (Entries JVal))
    (rk1 rk2 : Nat) (ipk : JWK) (ei : String) (ea en : Option String) :
    verify [Seg.header ha, Seg.sdBody ip, Seg.sig ik, Seg.header hb,
        Seg.relBody ⟨nonce1, aud1, cl⟩, Seg.sig rk1] ipk ei none ea en =
    verify [Seg.header ha, Seg.sdBody ip, Seg.sig ik, Seg.header hb,
        Seg.relBody ⟨nonce2, aud2, cl⟩, Seg.sig rk2] ipk ei none ea en := by
  simp [verify, _verify_sd_jwt, _verify_sd_jwt_release, pyTruthyKey]

/-- C3 counterexample: a verification call with `holder_public_key`
supplied and no holder key embedded in the SD token payload (`sub_jwk`
absent) does not fail with `HolderKeyMismatch`: the embedded-key
comparison is skipped entirely (the source guards it with
`if holder_public_key and holder_public_key_payload`) and verification
succeeds. -/
theorem holder_key_absent_no_mismatch :
    verify [Seg.header "ES256", Seg.sdBody ⟨"I", none, 0, 900, some []⟩,
        Seg.sig 1, Seg.header "ES256", Seg.relBody ⟨"N", "A", some []⟩,
        Seg.sig 2] ⟨1⟩ "I" (some ⟨2⟩) (some "A") (some "N") = .ok [] := by
  simp [verify, _verify_sd_jwt, _verify_sd_jwt_release, walk_by_structure,
    pyTruthyKey, pyTruthyStr, export_public]

/-- C3 (amended): when `holder_public_key` is supplied and the SD token
payload embeds a holder key, the two are compared and verification of
the release fails with `HolderKeyMismatch` exactly when they are
unequal; when the embedded key is absent from the payload the
comparison is skipped and `HolderKeyMismatch` is never raised — only
the signature check against the supplied key still applies. -/
theorem holder_key_check (ha : String) (p : ReleasePayload) (k : Nat)
    (hk : JWK) (ea en : Option String) (pl : PubKey) :
    (_verify_sd_jwt_release [Seg.header ha, Seg.relBody p, Seg.sig k]
        (some hk) ea en (some pl) = .error .holderKeyMismatch ↔
      pl ≠ export_public hk) ∧
    _verify_sd_jwt_release [Seg.header ha, Seg.relBody p, Seg.sig k]
        (some hk) ea en none ≠ .error .holderKeyMismatch := by
  constructor
  · by_cases hpl : export_public hk = pl
    · subst hpl
      simp only [ne_eq, eq_self_iff_true, not_true_eq_false, iff_false]
      intro h
      by_cases hk1 : k = hk.kid
      · by_cases ha1 : some p.aud = ea
        · by_cases hn1 : some p.nonce = en
          · rcases hcl : p.sd_claims with _ | cls <;>
              simp [_verify_sd_jwt_release, hk1, ha1, hn1, hcl] at h
          · simp [_verify_sd_jwt_release, hk1, ha1, hn1] at h
        · simp [_verify_sd_jwt_release, hk1, ha1] at h
      · simp [_verify_sd_jwt_release, hk1] at h
    · have hne : pl ≠ export_public hk := fun he => hpl he.symm
      simp [_verify_sd_jwt_release, if_neg hpl, hne]
  · intro h
    by_cases hk1 : k = hk.kid
    · by_cases ha1 : some p.aud = ea
      · by_cases hn1 : some p.nonce = en
        · rcases hcl : p.sd_claims with _ | cls <;>
            simp [_verify_sd_jwt_release, hk1, ha1, hn1, hcl] at h
        · simp [_verify_sd_jwt_release, hk1, ha1, hn1] at h
      · simp [_verify_sd_jwt_release, hk1, ha1] at h
    · simp [_verify_sd_jwt_release, hk1] at h

theorem holder_key_check_witness :
    _verify_sd_jwt_release [Seg.header "ES256",
        Seg.relBody ⟨"N", "A", some []⟩, Seg.sig 1] (some ⟨1⟩) (some "A")
        (some "N") (some ⟨2⟩) = .error .holderKeyMismatch :=
  (holder_key_check "ES256" ⟨"N", "A", some []⟩ 1 ⟨1⟩ (some "A") (some "N")
    ⟨2⟩).1.mpr (by decide)

/-- C4 (code evaluation): the salt emitted by `generate_salt` is a
deterministic function of the outputs of the general-purpose PRNG
`random.getrandbits` — with the PRNG stream at zero (as a seeded
Mersenne Twister state can be driven to) the salt is the fixed,
predictable 22-character string below (16 zero bytes, URL-safe base64,
`=` padding stripped). -/
theorem generate_salt_prng_deterministic :
    generate_salt (fun _ => 0) = "AAAAAAAAAAAAAAAAAAAAAA" ∧
    (generate_salt (fun _ => 0)).length = 22 := by
  constructor <;> rfl

/-- C5: if some chosen claim (a leaf at some path of the chosen subset)
has no corresponding disclosure entry in the decoded disclosure tree of
the container, `create_release_jwt` fails with `StructureMismatch` and
produces no release token. -/
theorem release_missing_entry_fails (nonce aud : String)
    (disclosed_claims : Entries JVal) (serialized_svc : SvcPayload)
    (holder_key : JWK)
    (h : missingL serialized_svc.sd_claims disclosed_claims = true) :
    create_release_jwt nonce aud disclosed_claims serialized_svc holder_key =
      .error .structureMismatch := by
  simp [create_release_jwt,
    walk_release_missing serialized_svc.sd_claims disclosed_claims h]

theorem release_missing_entry_fails_witness :
    create_release_jwt "n" "a" [("b", Tree.leaf JVal.null)]
      ⟨[("a", Tree.leaf (JVal.str "raw"))]⟩ ⟨1⟩ = .error .structureMismatch :=
  release_missing_entry_fails "n" "a" [("b", Tree.leaf JVal.null)]
    ⟨[("a", Tree.leaf (JVal.str "raw"))]⟩ ⟨1⟩ (by simp [missingL, List.lookup])

/-- C1: round trip.  For every claim tree `C` (a mapping with
duplicate-free keys, as every Python dict is) and every chosen subset
of its keys (`subShapeL chosen C`, values being placeholders), issuing
`C` with any salt source, releasing the chosen subset from the issued
container, and verifying the combined presentation with the matching
issuer key, holder key, audience and nonce (both checkable, i.e.
nonempty) succeeds and returns exactly the subset of `C` selected at
release time, every disclosed leaf value unmodified. -/
theorem round_trip (C chosen : Entries JVal) (issuer : String)
    (ikey hkey : JWK) (iat exp : Option Int) (now : Int)
    (saltSupply : Nat → String) (nonce aud : String)
    (hsub : subShapeL chosen C = true) (hnd : nodupL C = true)
    (haud : aud ≠ "") (hnonce : nonce ≠ "") :
    ∃ pl segs svc rp rsegs,
      create_sd_jwt_and_svc C issuer ikey hkey [] iat exp now saltSupply =
        .ok (pl, segs, svc) ∧
      create_release_jwt nonce aud chosen svc hkey = .ok (rp, rsegs) ∧
      verify (segs ++ rsegs) ikey issuer (some hkey) (some aud) (some nonce) =
        .ok (subSelectL C chosen) := by
  obtain ⟨S, n2, hS, hskel⟩ := walkSt_empty_ok C (freshSaltFn saltSupply) 0
  have hcov := fun k t h => (skel_lookup S C hskel k).2 t h
  have hcompat := compat_of_cover S C hcov hnd
  have hcw := walk_total S C
    (fun k v os => Except.ok (_create_sd_claim_entry k v os))
    _create_sd_claim_entry (fun _ _ _ => rfl) hcompat
  have hsw := walk_total S C
    (fun k v os => Except.ok (_create_svc_entry k v os))
    _create_svc_entry (fun _ _ _ => rfl) hcompat
  have hrelShape := subShape_transfer chosen C
    (zipL S C _create_svc_entry) hsub (zipL_skel S C _create_svc_entry)
  have hrel := walk_release (zipL S C _create_svc_entry) chosen hrelShape
  have hver := walk_verify chosen C S hsub hskel
  have hba : (aud == "") = false := beq_eq_false_iff_ne.mpr haud
  have hbn : (nonce == "") = false := beq_eq_false_iff_ne.mpr hnonce
  refine ⟨sdPayloadOf issuer hkey iat exp now S C,
          [Seg.header DEFAULT_SIGNIGN_ALG,
           Seg.sdBody (sdPayloadOf issuer hkey iat exp now S C),
           Seg.sig ikey.kid],
          ⟨zipL S C _create_svc_entry⟩,
          ⟨nonce, aud, some (zipL (zipL S C _create_svc_entry) chosen pickRaw)⟩,
          [Seg.header DEFAULT_SIGNIGN_ALG,
           Seg.relBody ⟨nonce, aud,
             some (zipL (zipL S C _create_svc_entry) chosen pickRaw)⟩,
           Seg.sig hkey.kid],
          ?_, ?_, ?_⟩
  · simp [create_sd_jwt_and_svc, sdPayloadOf, hS, hcw, hsw]
  · simp [create_release_jwt, hrel]
  · simp [verify, _verify_sd_jwt, _verify_sd_jwt_release, sdPayloadOf,
      pyTruthyKey, pyTruthyStr, hba, hbn, hver, export_public]

theorem round_trip_witness :
    ∃ pl segs svc rp rsegs,
      create_sd_jwt_and_svc
        [("sub", Tree.leaf (JVal.str "abc")),
         ("address", Tree.node [("city", Tree.leaf (JVal.str "X"))])]
        "issuer" ⟨1⟩ ⟨2⟩ [] none none 0 (fun n => toString n) =
        .ok (pl, segs, svc) ∧
      create_release_jwt "nonce" "aud"
        [("address", Tree.node [("city", Tree.leaf JVal.null)])] svc ⟨2⟩ =
        .ok (rp, rsegs) ∧
      verify (segs ++ rsegs) ⟨1⟩ "issuer" (some ⟨2⟩) (some "aud")
          (some "nonce") =
        .ok (subSelectL
          [("sub", Tree.leaf (JVal.str "abc")),
           ("address", Tree.node [("city", Tree.leaf (JVal.str "X"))])]
          [("address", Tree.node [("city", Tree.leaf JVal.null)])]) :=
  round_trip
    [("sub", Tree.leaf (JVal.str "abc")),
     ("address", Tree.node [("city", Tree.leaf (JVal.str "X"))])]
    [("address", Tree.node [("city", Tree.leaf JVal.null)])]
    "issuer" ⟨1⟩ ⟨2⟩ none none 0 (fun n => toString n) "nonce" "aud"
    (by simp [subShapeL, subShapeT, List.lookup])
    (by simp [nodupL, nodupT, List.lookup]) (by decide) (by decide)

end SDJWT
